import Mathlib

/-!
Verification of the frame-pipeline core of `src/python.py`: capture with
reconnect (`capture_frames`), a capacity-1 latest-frame queue, a detector
loop (`process_frames`) publishing `processed_frame`, and the MJPEG
generator (`generate_frames`).  Every definition below is a shallow
embedding of a concrete piece of that file, cited by line numbers.
-/

/-- A captured or annotated image buffer, abstracted as a value
(the slot models never inspect pixel contents). -/
abbrev Frame := Nat

/-- The detection results returned by `model(frame)` (line 61), abstracted. -/
abbrev Res := Nat

/-- The payload of an exception raised by the external inference call. -/
abbrev Err := Nat

/-- Lines 46-47 of `capture_frames`: `if not frame_queue.empty():
frame_queue.get()` — remove the old front frame if one is present,
otherwise touch nothing.  The capacity-1 `queue.Queue` contents are
modelled as a `List Frame` (front = oldest). -/
def discardOld (q : List Frame) : List Frame :=
  if q.isEmpty then q else q.tail

/-- The whole locked section of `capture_frames` (lines 45-48): discard
any currently held frame, then `frame_queue.put(frame)` (append). -/
def capPutLocked (q : List Frame) (f : Frame) : List Frame :=
  discardOld q ++ [f]

/-- The locked take of `process_frames` (lines 55-58): if
`frame_queue.empty()` the loop `continue`s without ever calling `get`
(nothing is removed); otherwise `frame_queue.get()` removes and returns
the front frame. -/
def takeIfPresent : List Frame → Option Frame × List Frame
  | [] => (none, [])
  | f :: rest => (some f, rest)

/-- An atomic (lock-protected) operation on the latest-frame slot:
either the capture thread's overwrite-put or the detector's take. -/
inductive SlotOp where
  | put (f : Frame)
  | take
deriving DecidableEq, Repr

/-- Apply one slot operation to the queue contents. -/
def applyOp (q : List Frame) : SlotOp → List Frame
  | .put f => capPutLocked q f
  | .take => (takeIfPresent q).2

/-- Run a sequence of slot operations. -/
def runOps (q : List Frame) (ops : List SlotOp) : List Frame :=
  ops.foldl applyOp q

/-- A sequence of capture puts with no intervening take. -/
def putMany (q : List Frame) (fs : List Frame) : List Frame :=
  fs.foldl capPutLocked q

/-- Line 69 of `process_frames`: `processed_frame = frame.copy()` —
overwrite the published slot with the new annotated frame (value view;
the aliasing aspect of `.copy()` is modelled separately by `publishCopy`). -/
def publishFrame (_pf : Option Frame) (f : Frame) : Option Frame :=
  some f

/-- A sequence of publishes with no intervening peek. -/
def publishMany (pf : Option Frame) (fs : List Frame) : Option Frame :=
  fs.foldl publishFrame pf

theorem capPutLocked_of_le_one (q : List Frame) (hq : q.length ≤ 1) (f : Frame) :
    capPutLocked q f = [f] := by
  cases q with
  | nil => rfl
  | cons a t =>
    cases t with
    | nil => rfl
    | cons b t' =>
      exfalso
      simp only [List.length_cons] at hq
      omega

theorem putMany_last (fs : List Frame) (f : Frame) :
    ∀ q : List Frame, q.length ≤ 1 → putMany q (fs ++ [f]) = [f] := by
  induction fs with
  | nil =>
    intro q hq
    simpa [putMany] using capPutLocked_of_le_one q hq f
  | cons a t ih =>
    intro q hq
    have h1 : (capPutLocked q a).length ≤ 1 := by
      rw [capPutLocked_of_le_one q hq a]
      simp
    simpa [putMany] using ih (capPutLocked q a) h1

/-- Claim C1: for any sequence of puts on the latest-frame slot (or
publishes to `processed_frame`) with no intervening reads, a subsequent
read observes exactly the most recently written frame; all earlier
frames of the sequence have been discarded (the slot holds only `[f]`,
resp. `some f`). -/
theorem slot_overwrite_last_wins (q : List Frame) (hq : q.length ≤ 1)
    (fs : List Frame) (f : Frame) (pf : Option Frame) :
    takeIfPresent (putMany q (fs ++ [f])) = (some f, []) ∧
    publishMany pf (fs ++ [f]) = some f := by
  constructor
  · rw [putMany_last fs f q hq]
    rfl
  · induction fs generalizing pf with
    | nil => rfl
    | cons a t ih => simpa [publishMany] using ih (some a)

/-- Witness for C1 at a concrete state and put sequence. -/
theorem slot_overwrite_last_wins_witness :
    ([] : List Frame).length ≤ 1 ∧
    (takeIfPresent (putMany [] ([1, 2] ++ [3])) = (some 3, []) ∧
      publishMany none ([1, 2] ++ [3]) = some 3) :=
  ⟨by decide, slot_overwrite_last_wins [] (by decide) [1, 2] 3 none⟩

theorem applyOp_le_one (q : List Frame) (hq : q.length ≤ 1) (op : SlotOp) :
    (applyOp q op).length ≤ 1 := by
  cases op with
  | put f =>
    show (capPutLocked q f).length ≤ 1
    rw [capPutLocked_of_le_one q hq f]
    simp
  | take =>
    show ((takeIfPresent q).2).length ≤ 1
    cases q with
    | nil => simp [takeIfPresent]
    | cons a t =>
      simp only [takeIfPresent]
      simp only [List.length_cons] at hq
      omega

theorem runOps_le_one (ops : List SlotOp) :
    ∀ q : List Frame, q.length ≤ 1 → (runOps q ops).length ≤ 1 := by
  induction ops with
  | nil =>
    intro q hq
    simpa [runOps] using hq
  | cons op rest ih =>
    intro q hq
    simpa [runOps] using ih (applyOp q op) (applyOp_le_one q hq op)

/-- Claim C2: starting empty, every sequence of slot operations leaves at
most one frame resident; a take immediately after a put returns exactly
the frame just put and empties the slot; and a take that returns a frame
removes it, so an immediately following take returns nothing (no frame is
returned by two different takes). -/
theorem latest_slot_at_most_one (ops : List SlotOp) (q : List Frame)
    (hq : q.length ≤ 1) (f : Frame) :
    (runOps [] ops).length ≤ 1 ∧
    takeIfPresent (capPutLocked q f) = (some f, []) ∧
    (∀ g q', takeIfPresent q = (some g, q') → takeIfPresent q' = (none, q')) := by
  refine ⟨runOps_le_one ops [] (by simp), ?_, ?_⟩
  · rw [capPutLocked_of_le_one q hq f]
    rfl
  · intro g q' h
    cases q with
    | nil => simp [takeIfPresent] at h
    | cons a t =>
      simp only [takeIfPresent, Prod.mk.injEq, Option.some.injEq] at h
      obtain ⟨rfl, rfl⟩ := h
      simp only [List.length_cons] at hq
      have ht : t = [] := List.length_eq_zero.mp (by omega)
      subst ht
      rfl

/-- Witness for C2 at a concrete operation sequence and state. -/
theorem latest_slot_at_most_one_witness :
    ([5] : List Frame).length ≤ 1 ∧
    ((runOps [] [SlotOp.put 1, SlotOp.take]).length ≤ 1 ∧
      takeIfPresent (capPutLocked [5] 7) = (some 7, []) ∧
      (∀ g q', takeIfPresent [5] = (some g, q') →
        takeIfPresent q' = (none, q'))) :=
  ⟨by decide, latest_slot_at_most_one [SlotOp.put 1, SlotOp.take] [5] (by decide) 7⟩

/-- Claim C8: neither slot operation can block while holding the lock.
A take on the empty slot reports nothing and removes nothing (the
underlying `get` is only reached in the non-empty branch), and at the
moment of every `put` the capacity-1 queue is empty because any occupant
was discarded first, so `put` cannot block on a full queue. -/
theorem slot_ops_nonblocking (q : List Frame) (hq : q.length ≤ 1) (f : Frame) :
    takeIfPresent [] = (none, []) ∧
    discardOld q = [] ∧
    capPutLocked q f = [f] := by
  refine ⟨rfl, ?_, capPutLocked_of_le_one q hq f⟩
  cases q with
  | nil => rfl
  | cons a t =>
    cases t with
    | nil => rfl
    | cons b t' =>
      exfalso
      simp only [List.length_cons] at hq
      omega

/-- Witness for C8 at a concrete occupied slot. -/
theorem slot_ops_nonblocking_witness :
    ([9] : List Frame).length ≤ 1 ∧
    (takeIfPresent [] = (none, []) ∧
      discardOld [9] = [] ∧
      capPutLocked [9] 4 = [4]) :=
  ⟨by decide, slot_ops_nonblocking [9] (by decide) 4⟩

/-- Observable outcome of the outer connection loop of `capture_frames`
(lines 27-36) run until the first successful `cv2.VideoCapture` open. -/
structure ConnectResult where
  attempts : Nat
  retries : Nat
  sleeps : List Nat
  connected : Bool
deriving DecidableEq, Repr

/-- The outer `while True` of `capture_frames` (lines 27-36) against a
source whose open fails `n` times and then succeeds: each failed
`cap.isOpened()` increments `retries`, performs `time.sleep(2)` and
`continue`s; the first successful open proceeds connected.  There is no
failure branch that exits the loop and no retry cap. -/
def captureConnect : Nat → ConnectResult
  | 0 => { attempts := 1, retries := 0, sleeps := [], connected := true }
  | n + 1 =>
    let r := captureConnect n
    { attempts := r.attempts + 1, retries := r.retries + 1,
      sleeps := 2 :: r.sleeps, connected := r.connected }

/-- Claim C4: if the source fails to open `N` times then succeeds, the
capture loop reaches the connected state after exactly `N + 1` attempts,
with each of the `N` failures followed by the same fixed 2-unit delay;
since this holds for every `N`, the loop has no terminal failure state
and no maximum retry count. -/
theorem reconnect_convergence (N : Nat) :
    captureConnect N =
      { attempts := N + 1, retries := N,
        sleeps := List.replicate N 2, connected := true } := by
  induction N with
  | zero => rfl
  | succ n ih => simp [captureConnect, ih, List.replicate_succ]

/-- The inner read loop of `capture_frames` (lines 38-48) against a
script of read results: `some f` is a successful `cap.read()` whose frame
is put into the slot; `none` is a failed read, on which the code calls
`cap.release()` and `break`s out of the inner loop (the `Bool` result:
`true` = control returned to the reconnect logic, `false` = script
exhausted while still reading).  The `Nat` counts `cap.release()` calls. -/
def readLoop : List (Option Frame) → List Frame → Nat → List Frame × Nat × Bool
  | [], q, rel => (q, rel, false)
  | none :: _, q, rel => (q, rel + 1, true)
  | some f :: rest, q, rel => readLoop rest (capPutLocked q f) rel

/-- The capture thread across successive connection sessions: after a
read failure ends one session, the outer loop opens a fresh session and
runs the next read script.  Returns the final queue and the total number
of `cap.release()` calls. -/
def captureSessions : List Frame → List (List (Option Frame)) → List Frame × Nat
  | q, [] => (q, 0)
  | q, reads :: more =>
    match readLoop reads q 0 with
    | (q', rel, true) =>
      let r := captureSessions q' more
      (r.1, rel + r.2)
    | (q', rel, false) => (q', rel)

theorem readLoop_session (p : List Frame) :
    ∀ (q : List Frame) (rel : Nat),
      readLoop (p.map some ++ [none]) q rel = (putMany q p, rel + 1, true) := by
  induction p with
  | nil =>
    intro q rel
    rfl
  | cons a t ih =>
    intro q rel
    simpa [readLoop, putMany] using ih (capPutLocked q a) rel

/-- Claim C6: a read failure after a successful connection causes exactly
one `cap.release()` and a return to the reconnect logic, which opens a
fresh session; a read failure is never fatal — for any number of
sessions each ending in a read failure, every session's frames are
captured and every session is followed by the next (one release per
failure, all puts performed). -/
theorem read_failure_releases_and_reconnects (pres : List (List Frame)) :
    ∀ q : List Frame,
      captureSessions q (pres.map (fun p => p.map some ++ [none])) =
        (pres.foldl putMany q, pres.length) := by
  induction pres with
  | nil =>
    intro q
    rfl
  | cons p rest ih =>
    intro q
    simp [captureSessions, readLoop_session p q 0, ih (putMany q p),
      Nat.add_comm]

/-- One iteration of the `process_frames` body (lines 54-69): the locked
take (55-58; on empty the loop just `continue`s), then `model(frame)` —
which may raise, and no `try`/`except` surrounds it, so the error is
returned as-is — then the `for result in results` plotting loop (64-65)
rebinding `frame` to `result.plot()` for each result, then the locked
publish `processed_frame = frame.copy()` (68-69). -/
def processBody (infer : Frame → Except Err (List Res)) (plot : Res → Frame)
    (q : List Frame) (pf : Option Frame) :
    Except Err (List Frame × Option Frame) :=
  match takeIfPresent q with
  | (none, q') => .ok (q', pf)
  | (some f, q') =>
    match infer f with
    | .error e => .error e
    | .ok results =>
      let f' := results.foldl (fun _ r => plot r) f
      .ok (q', publishFrame pf f')

/-- The `while True` of `process_frames`, fuel-bounded: an error from the
body is the uncaught exception propagating out of the loop — no further
iteration runs. -/
def processLoop (infer : Frame → Except Err (List Res)) (plot : Res → Frame) :
    Nat → List Frame → Option Frame → Except Err (List Frame × Option Frame)
  | 0, q, pf => .ok (q, pf)
  | n + 1, q, pf =>
    match processBody infer plot q pf with
    | .error e => .error e
    | .ok (q', pf') => processLoop infer plot n q' pf'

/-- Claim C5: if the inference call raises on the frame at the head of
the slot, the exception propagates out of the detection loop — the loop
terminates immediately with that error, however much fuel remains, and
the published frame is never updated (no catch/skip/continue path
exists). -/
theorem inference_error_terminates (infer : Frame → Except Err (List Res))
    (plot : Res → Frame) (f : Frame) (e : Err) (h : infer f = .error e)
    (rest : List Frame) (pf : Option Frame) (n : Nat) :
    processLoop infer plot (n + 1) (f :: rest) pf = .error e := by
  simp [processLoop, processBody, takeIfPresent, h]

/-- Witness for C5 with a concrete always-raising inference function. -/
theorem inference_error_terminates_witness :
    (fun _ : Frame => (Except.error 7 : Except Err (List Res))) 3 = Except.error 7 ∧
    processLoop (fun _ : Frame => (Except.error 7 : Except Err (List Res)))
      (fun r => r) (0 + 1) (3 :: []) none = Except.error 7 :=
  ⟨rfl, inference_error_terminates _ _ 3 7 rfl [] none 0⟩

/-- The byte sequence of an ASCII string literal from the source. -/
def asciiBytes (s : String) : List Nat :=
  s.data.map Char.toNat

/-- The multipart chunk yielded by `generate_frames` (lines 86-87):
boundary and part header, then the JPEG buffer bytes, then CRLF. -/
def mkChunk (buf : List Nat) : List Nat :=
  asciiBytes ("--frame\r\nContent-Type: image/jpeg\r\n\r\n") ++ buf ++
    asciiBytes ("\r\n")

/-- One iteration of the `generate_frames` body (lines 79-87) with JPEG
encoding abstracted as `enc`: under the lock, if `processed_frame is
None` the loop `continue`s yielding nothing; otherwise it encodes the
stored frame and yields one chunk.  In neither branch is
`processed_frame` assigned, so the slot state is returned unchanged. -/
def genStep (enc : Frame → List Nat) (pf : Option Frame) :
    List (List Nat) × Option Frame :=
  match pf with
  | none => ([], none)
  | some f => ([mkChunk (enc f)], some f)

/-- `n` iterations of the `generate_frames` loop with no intervening
publish, collecting every chunk yielded to the client. -/
def genRun (enc : Frame → List Nat) : Nat → Option Frame → List (List Nat) × Option Frame
  | 0, pf => ([], pf)
  | n + 1, pf =>
    let s := genStep enc pf
    let r := genRun enc n s.2
    (s.1 ++ r.1, r.2)

/-- Claim C3: with a frame published and no intervening publish, every
one of `n` successive peeks observes the same frame — each iteration
yields the identical chunk and the stored frame is neither removed nor
altered. -/
theorem peek_nondestructive (enc : Frame → List Nat) (f : Frame) (n : Nat) :
    genRun enc n (some f) = (List.replicate n (mkChunk (enc f)), some f) := by
  induction n with
  | zero => rfl
  | succ m ih => simp [genRun, genStep, ih, List.replicate_succ]

/-- Claim C7: if no frame has ever been published (`processed_frame` is
`None`), any number of generator iterations yields zero chunks and the
slot stays empty; the loop simply retries, producing no data and no
error value for the connected client. -/
theorem no_publish_no_chunks (enc : Frame → List Nat) (n : Nat) :
    genRun enc n none = ([], none) := by
  induction n with
  | zero => rfl
  | succ m ih => simp [genRun, genStep, ih]

/-- The kinds of work the three loop bodies perform. -/
inductive LoopAct where
  | readFrame
  | takeSlot
  | putSlot
  | inference
  | publishSlot
  | peekSlot
  | encode
  | yieldChunk
deriving DecidableEq, Repr

/-- One step of a loop body, tagged with whether the source performs it
inside a `with lock` block. -/
structure LoopStep where
  act : LoopAct
  locked : Bool
deriving DecidableEq, Repr

/-- Whether an action touches one of the two frame slots. -/
def isSlotAccess : LoopAct → Bool
  | .takeSlot | .putSlot | .publishSlot | .peekSlot => true
  | _ => false

/-- Lock structure of the `capture_frames` inner loop (lines 38-48):
`cap.read()` at line 39 runs outside the lock; the conditional discard
and the put (lines 45-48) run inside `with lock`. -/
def captureBodySteps : List LoopStep :=
  [⟨LoopAct.readFrame, false⟩, ⟨LoopAct.takeSlot, true⟩, ⟨LoopAct.putSlot, true⟩]

/-- Lock structure of the `process_frames` body (lines 54-69): the take
(55-58) inside `with lock`; `model(frame)` and the plotting loop (61-65)
outside any lock; the publish (68-69) inside `with lock`. -/
def processBodySteps : List LoopStep :=
  [⟨LoopAct.takeSlot, true⟩, ⟨LoopAct.inference, false⟩, ⟨LoopAct.publishSlot, true⟩]

/-- Lock structure of the `generate_frames` body (lines 79-87): the
`with lock` block spans lines 80-84, so both the peek of
`processed_frame` AND the `cv2.imencode` call run while holding the
lock; only the `yield` (86-87) is outside. -/
def generateBodySteps : List LoopStep :=
  [⟨LoopAct.peekSlot, true⟩, ⟨LoopAct.encode, true⟩, ⟨LoopAct.yieldChunk, false⟩]

/-- A loop body keeps the lock to slot access only when every step it
performs while holding the lock is a slot access. -/
def onlySlotAccessLocked (steps : List LoopStep) : Bool :=
  steps.all fun s => !s.locked || isSlotAccess s.act

/-- Claim C9 as stated is false on the code: the JPEG encode step of
`generate_frames` (line 84) is performed while holding the lock, and it
is not a slot access, so the lock serializes the encoding work too. -/
theorem lock_covers_encode_counterexample :
    LoopStep.mk LoopAct.encode true ∈ generateBodySteps ∧
    isSlotAccess LoopAct.encode = false ∧
    onlySlotAccessLocked generateBodySteps = false := by
  decide

/-- Claim C9 (amended): in the capture and detection loops only slot
access is performed under the lock — in particular the inference call
runs unsynchronized — but in the stream generator the JPEG encode runs
inside the locked region together with the peek; only the yield of the
chunk is outside the lock. -/
theorem lock_scope_amended :
    onlySlotAccessLocked captureBodySteps = true ∧
    onlySlotAccessLocked processBodySteps = true ∧
    LoopStep.mk LoopAct.inference false ∈ processBodySteps ∧
    LoopStep.mk LoopAct.encode true ∈ generateBodySteps ∧
    LoopStep.mk LoopAct.yieldChunk false ∈ generateBodySteps := by
  decide

/-- The process heap as seen by the published-frame mechanism: image
buffers identified by allocation index, plus `processed_frame` as a
reference (index) into it, `none` before the first publish (line 19:
`processed_frame = None`). -/
structure PubState where
  heap : List (List Nat)
  published : Option Nat
deriving DecidableEq, Repr

/-- The initial module state (lines 19-20): no buffer published. -/
def initPub : PubState :=
  { heap := [], published := none }

/-- Lines 68-69 of `process_frames`: `processed_frame = frame.copy()` —
allocate a fresh buffer holding a copy of the detector's working buffer
`w` and point `processed_frame` at the fresh buffer, never at `w`
itself. -/
def publishCopy (st : PubState) (w : Nat) : PubState :=
  { heap := st.heap ++ [st.heap.getD w []],
    published := some st.heap.length }

/-- In-place mutation of buffer `i`, e.g. the detector overwriting its
working frame on the next iteration (lines 58-65). -/
def mutateBuf (st : PubState) (i : Nat) (b : List Nat) : PubState :=
  { heap := st.heap.set i b, published := st.published }

/-- What a reader of `processed_frame` observes (lines 81-84): the
contents of the published buffer, or nothing before the first publish. -/
def peekPub (st : PubState) : Option (List Nat) :=
  st.published.map fun i => st.heap.getD i []

/-- Detector-side operations affecting the published slot. -/
inductive PubOp where
  | publish (w : Nat)
  | mutate (i : Nat) (b : List Nat)
deriving DecidableEq, Repr

def applyPubOp (st : PubState) : PubOp → PubState
  | .publish w => publishCopy st w
  | .mutate i b => mutateBuf st i b

def runPub (st : PubState) (ops : List PubOp) : PubState :=
  ops.foldl applyPubOp st

theorem applyPubOp_isSome (st : PubState) (h : st.published.isSome = true)
    (op : PubOp) : (applyPubOp st op).published.isSome = true := by
  cases op with
  | publish w => rfl
  | mutate i b => exact h

theorem runPub_isSome (ops : List PubOp) :
    ∀ st : PubState, st.published.isSome = true →
      (runPub st ops).published.isSome = true := by
  induction ops with
  | nil =>
    intro st h
    exact h
  | cons op rest ih =>
    intro st h
    simpa [runPub] using ih (applyPubOp st op) (applyPubOp_isSome st h op)

/-- Claim C10: the published frame starts absent; once the detector
publishes, any further sequence of detector operations leaves it
present; the published value is the copy of the working buffer taken at
publish time; and mutating the working buffer afterwards does not change
what a reader observes, because the copy is an independent allocation. -/
theorem published_copy_independent (st : PubState) (w : Nat)
    (hw : w < st.heap.length) (b : List Nat) (ops : List PubOp) :
    initPub.published = none ∧
    (runPub (publishCopy st w) ops).published.isSome = true ∧
    peekPub (publishCopy st w) = some (st.heap.getD w []) ∧
    peekPub (mutateBuf (publishCopy st w) w b) = some (st.heap.getD w []) := by
  refine ⟨rfl, runPub_isSome ops _ rfl, ?_, ?_⟩
  · simp [peekPub, publishCopy, List.getD_eq_getElem?_getD,
      List.getElem?_append_right]
  · have hne : w ≠ st.heap.length := Nat.ne_of_lt hw
    simp [peekPub, publishCopy, mutateBuf, List.getD_eq_getElem?_getD,
      List.getElem?_set_ne hne, List.getElem?_append_right]

/-- Witness for C10 at a concrete one-buffer state. -/
theorem published_copy_independent_witness :
    (0 : Nat) < (PubState.mk [[1, 2]] none).heap.length ∧
    (initPub.published = none ∧
      (runPub (publishCopy (PubState.mk [[1, 2]] none) 0)
        [PubOp.mutate 0 [9]]).published.isSome = true ∧
      peekPub (publishCopy (PubState.mk [[1, 2]] none) 0) =
        some ((PubState.mk [[1, 2]] none).heap.getD 0 []) ∧
      peekPub (mutateBuf (publishCopy (PubState.mk [[1, 2]] none) 0) 0 [9]) =
        some ((PubState.mk [[1, 2]] none).heap.getD 0 [])) :=
  ⟨by decide,
    published_copy_independent (PubState.mk [[1, 2]] none) 0 (by decide) [9]
      [PubOp.mutate 0 [9]]⟩
